import Mathlib

/-!
Verification of the terminal-multiplexing bridge in `src/http2editor`
(`server.js` and `public/app.js`).

Server side: `terminalSessions` is a map from session id to a record
holding the spawned pty process and response references.  We embed it as
an association list.  A pty process is identified by its spawn number.
Response (sink) objects are identified by numbers; a set records which
response connections are closed (`res.destroyed`; `res.end()` is modelled
as closing the response, since nothing written after `end()` reaches the
client).  Logs record, in order, every frame written to a response, every
`pty.write` and every `pty.resize`.

Client side: the output batching buffer, the keystroke queue with its
single-in-flight drain, the 5ms input debounce, and the reconnect logic of
`connectTerminal` are embedded as explicit state machines.
-/

namespace TermBridge

/-- Wire frames of the push channel (server.js lines 89, 110, 144). -/
inductive Frame where
| connected : Frame
| output : String → Frame
| errFrame : String → Frame
| exitFrame : Int → Option Int → Frame
deriving DecidableEq

/-- HTTP responses produced by the request handlers. -/
inductive Resp where
| ok : Resp
| badRequest : Resp
| notFound : Resp
| serverError : Resp
deriving DecidableEq

/-- One entry of the `terminalSessions` map (server.js line 151).  `pid` is
the spawned pty process, `createRes` the response captured by the
`onData`/`onExit` closures registered at creation, and `res` the mutable
`session.res` field, rebound on reattach and cleared on disconnect. -/
structure Session where
  pid : Nat
  createRes : Nat
  res : Option Nat
deriving DecidableEq

/-- Global server state: the session map, a counter producing fresh process
identities (also counting `pty.spawn` calls via `spawned`), the set of
closed responses, and the write/resize logs. -/
structure ServerState where
  sessions : List (String × Session)
  nextPid : Nat
  spawned : Nat
  destroyed : List Nat
  writes : List (Nat × Frame)
  ptyWrites : List (Nat × String)
  ptyResizes : List (Nat × Int × Int)
deriving DecidableEq

/-- The state of a freshly started server: no sessions, empty logs. -/
def st0 : ServerState := ⟨[], 0, 0, [], [], [], []⟩

/-- `terminalSessions.get(id)` on the association list. -/
def lookupS : List (String × Session) → String → Option Session
| [], _ => none
| (k, v) :: t, id => if k = id then some v else lookupS t id

/-- `terminalSessions.set(id, s)`: insert or replace. -/
def setS : List (String × Session) → String → Session → List (String × Session)
| [], id, s => [(id, s)]
| (k, v) :: t, id, s => if k = id then (id, s) :: t else (k, v) :: setS t id s

/-- `terminalSessions.delete(id)`. -/
def delS : List (String × Session) → String → List (String × Session)
| [], _ => []
| (k, v) :: t, id => if k = id then delS t id else (k, v) :: delS t id

/-- Whether the connection behind response `r` is closed (`res.destroyed`). -/
def sinkClosed (st : ServerState) (r : Nat) : Bool := decide (r ∈ st.destroyed)

/-- Handler of GET `/api/terminal/:sessionId` (server.js lines 78-185): it
writes the `connected` frame to the new response, then either spawns a pty
with fresh identity and registers the session (id absent), or rebinds
`session.res` to the new response (id present). -/
def attach (st : ServerState) (id : String) (resId : Nat) : ServerState :=
  match lookupS st.sessions id with
  | none =>
    { st with
      writes := st.writes ++ [(resId, Frame.connected)],
      sessions := setS st.sessions id { pid := st.nextPid, createRes := resId, res := some resId },
      nextPid := st.nextPid + 1,
      spawned := st.spawned + 1 }
  | some s =>
    { st with
      writes := st.writes ++ [(resId, Frame.connected)],
      sessions := setS st.sessions id { s with res := some resId } }

/-- The `req.on('close')` handler (server.js lines 173-180): clears the
session's response reference; the session entry and its pty are untouched. -/
def onReqClose (st : ServerState) (id : String) : ServerState :=
  match lookupS st.sessions id with
  | some s => { st with sessions := setS st.sessions id { s with res := none } }
  | none => st

/-- A client disconnect: the transport marks the closing response `r` as
destroyed, then the registered `close` handler runs. -/
def clientDisconnect (st : ServerState) (id : String) (r : Nat) : ServerState :=
  onReqClose { st with destroyed := st.destroyed ++ [r] } id

/-- The pty `onData` handler (server.js lines 106-140).  The closure writes
one `output` frame per chunk to the creation-time response `capturedRes`
when that response is still open; otherwise it re-looks the session up and
falls back to the rebound `session.res`; otherwise the chunk is dropped. -/
def ptyData (st : ServerState) (id : String) (capturedRes : Nat) (data : String) : ServerState :=
  if sinkClosed st capturedRes = false then
    { st with writes := st.writes ++ [(capturedRes, Frame.output data)] }
  else
    match lookupS st.sessions id with
    | some s =>
      match s.res with
      | some r =>
        if sinkClosed st r = false then
          { st with writes := st.writes ++ [(r, Frame.output data)] }
        else st
      | none => st
    | none => st

/-- The pty `onExit` handler (server.js lines 142-149): if the creation-time
response `capturedRes` is still open, write the `exit` frame to it and end
it; in every case delete the session from the registry. -/
def ptyExit (st : ServerState) (id : String) (capturedRes : Nat) (code : Int)
    (sig : Option Int) : ServerState :=
  if sinkClosed st capturedRes = false then
    { st with
      writes := st.writes ++ [(capturedRes, Frame.exitFrame code sig)],
      destroyed := st.destroyed ++ [capturedRes],
      sessions := delS st.sessions id }
  else
    { st with sessions := delS st.sessions id }

/-- Handler of POST `/api/terminal/:sessionId/input` (server.js lines
188-210).  `!input` is JavaScript falsiness on the string field: it holds
when the field is missing and when it is the empty string.  A registered
session gets the string forwarded verbatim to `pty.write`.  (The 500 path
for a throwing `pty.write` is not modelled: the embedded write is total.) -/
def inputHandler (st : ServerState) (id : String) (input : Option String) :
    ServerState × Resp :=
  match input with
  | none => (st, Resp.badRequest)
  | some d =>
    if d = "" then (st, Resp.badRequest)
    else
      match lookupS st.sessions id with
      | some s => ({ st with ptyWrites := st.ptyWrites ++ [(s.pid, d)] }, Resp.ok)
      | none => (st, Resp.notFound)

/-- Handler of POST `/api/terminal/:sessionId/resize` (server.js lines
213-224): the body's `cols`/`rows` are forwarded to `pty.resize` as
received; an unregistered id gets 404. -/
def resizeHandler (st : ServerState) (id : String) (cols rows : Int) :
    ServerState × Resp :=
  match lookupS st.sessions id with
  | some s => ({ st with ptyResizes := st.ptyResizes ++ [(s.pid, cols, rows)] }, Resp.ok)
  | none => (st, Resp.notFound)

/-- Every server-side event touching the registry. -/
inductive SEvent where
| attachEv : String → Nat → SEvent
| disconnectEv : String → Nat → SEvent
| inputEv : String → Option String → SEvent
| resizeEv : String → Int → Int → SEvent
| dataEv : String → Nat → String → SEvent
| exitEv : String → Nat → Int → Option Int → SEvent
deriving DecidableEq

/-- One server step. -/
def sstep (st : ServerState) : SEvent → ServerState
| SEvent.attachEv id r => attach st id r
| SEvent.disconnectEv id r => clientDisconnect st id r
| SEvent.inputEv id i => (inputHandler st id i).1
| SEvent.resizeEv id c rws => (resizeHandler st id c rws).1
| SEvent.dataEv id r d => ptyData st id r d
| SEvent.exitEv id r c sg => ptyExit st id r c sg

theorem lookupS_setS_self (m : List (String × Session)) (id : String) (s : Session) :
    lookupS (setS m id s) id = some s := by
  induction m with
  | nil => simp [setS, lookupS]
  | cons p t ih =>
    obtain ⟨k, v⟩ := p
    by_cases h : k = id
    · simp [setS, lookupS, h]
    · simp [setS, lookupS, h, ih]

theorem lookupS_setS_ne (m : List (String × Session)) (id id' : String) (s : Session)
    (h : id ≠ id') : lookupS (setS m id' s) id = lookupS m id := by
  induction m with
  | nil => simp [setS, lookupS, Ne.symm h]
  | cons p t ih =>
    obtain ⟨k, v⟩ := p
    by_cases hk : k = id'
    · subst hk
      simp [setS, lookupS, Ne.symm h]
    · simp [setS, lookupS, hk, ih]

theorem lookupS_delS_self (m : List (String × Session)) (id : String) :
    lookupS (delS m id) id = none := by
  induction m with
  | nil => simp [delS, lookupS]
  | cons p t ih =>
    obtain ⟨k, v⟩ := p
    by_cases h : k = id
    · simp [delS, h, ih]
    · simp [delS, lookupS, h, ih]

theorem lookupS_delS_ne (m : List (String × Session)) (id id' : String)
    (h : id ≠ id') : lookupS (delS m id') id = lookupS m id := by
  induction m with
  | nil => simp [delS]
  | cons p t ih =>
    obtain ⟨k, v⟩ := p
    by_cases hk : k = id'
    · subst hk
      simp [delS, lookupS, Ne.symm h, ih]
    · simp [delS, lookupS, hk, ih]

theorem attach_of_none (st : ServerState) (id : String) (r : Nat)
    (h : lookupS st.sessions id = none) :
    attach st id r =
      { st with
        writes := st.writes ++ [(r, Frame.connected)],
        sessions := setS st.sessions id { pid := st.nextPid, createRes := r, res := some r },
        nextPid := st.nextPid + 1,
        spawned := st.spawned + 1 } := by
  simp [attach, h]

theorem attach_existing (st : ServerState) (id : String) (r : Nat) (s : Session)
    (h : lookupS st.sessions id = some s) :
    lookupS (attach st id r).sessions id = some { s with res := some r } ∧
    (attach st id r).spawned = st.spawned ∧ (attach st id r).nextPid = st.nextPid := by
  simp [attach, h, lookupS_setS_self]

theorem attach_iter (id : String) (rs : List Nat) :
    ∀ (st : ServerState) (s : Session), lookupS st.sessions id = some s →
    (∃ s', lookupS (rs.foldl (fun a ri => attach a id ri) st).sessions id = some s' ∧
      s'.pid = s.pid) ∧
    (rs.foldl (fun a ri => attach a id ri) st).spawned = st.spawned ∧
    (rs.foldl (fun a ri => attach a id ri) st).nextPid = st.nextPid := by
  induction rs with
  | nil => exact fun st s h => ⟨⟨s, h, rfl⟩, rfl, rfl⟩
  | cons ri rs ih =>
    intro st s h
    obtain ⟨h1, h2, h3⟩ := attach_existing st id ri s h
    obtain ⟨⟨s', hs', hp⟩, hsp, hnp⟩ := ih (attach st id ri) _ h1
    refine ⟨⟨s', by simpa using hs', by simpa using hp⟩, ?_, ?_⟩
    · simpa [h2] using hsp
    · simpa [h3] using hnp

/-- C1: the first attach for an id spawns exactly one pty process, and any
number of subsequent attaches for the same id spawns none: the process
identity bound to the id stays `st.nextPid` across all of them. -/
theorem attach_process_identity_stable (st : ServerState) (id : String) (r : Nat)
    (rs : List Nat) (h : lookupS st.sessions id = none) :
    (attach st id r).spawned = st.spawned + 1 ∧
    (lookupS (attach st id r).sessions id).map Session.pid = some st.nextPid ∧
    (rs.foldl (fun a ri => attach a id ri) (attach st id r)).spawned = st.spawned + 1 ∧
    (lookupS (rs.foldl (fun a ri => attach a id ri) (attach st id r)).sessions id).map
      Session.pid = some st.nextPid := by
  have h1 : lookupS (attach st id r).sessions id =
      some { pid := st.nextPid, createRes := r, res := some r } := by
    rw [attach_of_none st id r h]
    exact lookupS_setS_self _ _ _
  have h2 : (attach st id r).spawned = st.spawned + 1 := by
    rw [attach_of_none st id r h]
  obtain ⟨⟨s', hs', hp⟩, hsp, _⟩ :=
    attach_iter id rs (attach st id r) { pid := st.nextPid, createRes := r, res := some r } h1
  refine ⟨h2, by simp [h1], by rw [hsp, h2], by simp [hs', hp]⟩

/-- Witness for C1 at a concrete trace: create on a fresh server, then
reattach twice. -/
theorem attach_process_identity_stable_witness :
    (attach st0 "s" 1).spawned = st0.spawned + 1 ∧
    (lookupS (attach st0 "s" 1).sessions "s").map Session.pid = some st0.nextPid ∧
    (([2, 3] : List Nat).foldl (fun a ri => attach a "s" ri) (attach st0 "s" 1)).spawned =
      st0.spawned + 1 ∧
    (lookupS (([2, 3] : List Nat).foldl (fun a ri => attach a "s" ri)
      (attach st0 "s" 1)).sessions "s").map Session.pid = some st0.nextPid :=
  attach_process_identity_stable st0 "s" 1 [2, 3] rfl

theorem inputHandler_sessions (st : ServerState) (id : String) (i : Option String) :
    ((inputHandler st id i).1).sessions = st.sessions := by
  unfold inputHandler
  cases i with
  | none => rfl
  | some d =>
    dsimp only
    split
    · rfl
    · cases hl : lookupS st.sessions id <;> simp [hl]

theorem resizeHandler_sessions (st : ServerState) (id : String) (c r : Int) :
    ((resizeHandler st id c r).1).sessions = st.sessions := by
  unfold resizeHandler
  cases hl : lookupS st.sessions id <;> simp [hl]

theorem ptyData_sessions (st : ServerState) (id : String) (r : Nat) (d : String) :
    (ptyData st id r d).sessions = st.sessions := by
  unfold ptyData
  split
  · rfl
  · cases hl : lookupS st.sessions id with
    | none => simp [hl]
    | some s =>
      cases hr : s.res <;> simp [hl, hr]
      split <;> rfl

theorem clientDisconnect_lookup (st : ServerState) (id : String) (r : Nat) (s : Session)
    (h : lookupS st.sessions id = some s) :
    lookupS (clientDisconnect st id r).sessions id = some { s with res := none } ∧
    (clientDisconnect st id r).spawned = st.spawned := by
  have h' : lookupS ({ st with destroyed := st.destroyed ++ [r] } : ServerState).sessions id =
      some s := h
  constructor
  · simp [clientDisconnect, onReqClose, h', lookupS_setS_self]
  · simp [clientDisconnect, onReqClose, h']

theorem attach_lookup_isSome (st : ServerState) (id id' : String) (r : Nat) (s : Session)
    (h : lookupS st.sessions id = some s) :
    ∃ s', lookupS (attach st id' r).sessions id = some s' := by
  by_cases he : id = id'
  · subst he
    exact ⟨_, (attach_existing st id r s h).1⟩
  · unfold attach
    cases hl : lookupS st.sessions id' <;>
      simp [lookupS_setS_ne _ _ _ _ he, h]

theorem onReqClose_lookup_isSome (st : ServerState) (id id' : String) (s : Session)
    (h : lookupS st.sessions id = some s) :
    ∃ s', lookupS (onReqClose st id').sessions id = some s' := by
  by_cases he : id = id'
  · subst he
    simp [onReqClose, h, lookupS_setS_self]
  · unfold onReqClose
    cases hl : lookupS st.sessions id' <;>
      simp [lookupS_setS_ne _ _ _ _ he, h]

theorem sstep_lookup_isSome (st : ServerState) (e : SEvent) (id : String) (s : Session)
    (h : lookupS st.sessions id = some s)
    (hne : ∀ r c sg, e ≠ SEvent.exitEv id r c sg) :
    ∃ s', lookupS (sstep st e).sessions id = some s' := by
  cases e with
  | attachEv id' r => exact attach_lookup_isSome st id id' r s h
  | disconnectEv id' r =>
    exact onReqClose_lookup_isSome { st with destroyed := st.destroyed ++ [r] } id id' s h
  | inputEv id' i => exact ⟨s, by rw [sstep, inputHandler_sessions]; exact h⟩
  | resizeEv id' c rws => exact ⟨s, by rw [sstep, resizeHandler_sessions]; exact h⟩
  | dataEv id' r d => exact ⟨s, by rw [sstep, ptyData_sessions]; exact h⟩
  | exitEv id' r c sg =>
    have he : id ≠ id' := by
      intro hh
      exact hne r c sg (by rw [hh])
    refine ⟨s, ?_⟩
    rw [sstep]
    unfold ptyExit
    split <;> simp [lookupS_delS_ne _ _ _ he, h]

/-- C2: a client disconnect only clears the session's sink reference (the
entry survives with the same process and `res = none`, and no process is
spawned or killed), and for any server event whatsoever, a registered
session disappears from the registry only through a pty exit event for that
very id. -/
theorem session_removed_only_by_exit (st : ServerState) (id : String) (s : Session)
    (r : Nat) (e : SEvent) (h : lookupS st.sessions id = some s) :
    (lookupS (clientDisconnect st id r).sessions id = some { s with res := none } ∧
      (clientDisconnect st id r).spawned = st.spawned) ∧
    (lookupS (sstep st e).sessions id = none →
      ∃ r' c sg, e = SEvent.exitEv id r' c sg) := by
  refine ⟨clientDisconnect_lookup st id r s h, ?_⟩
  intro hnone
  by_contra hc
  push_neg at hc
  obtain ⟨s', hs'⟩ := sstep_lookup_isSome st e id s h hc
  rw [hs'] at hnone
  exact Option.noConfusion hnone

/-- Witness for C2 on a concrete one-session registry, with a disconnect
event and an exit event. -/
theorem session_removed_only_by_exit_witness :
    (lookupS (clientDisconnect (attach st0 "s" 1) "s" 7).sessions "s" =
        some { pid := 0, createRes := 1, res := none } ∧
      (clientDisconnect (attach st0 "s" 1) "s" 7).spawned = (attach st0 "s" 1).spawned) ∧
    (lookupS (sstep (attach st0 "s" 1) (SEvent.exitEv "s" 1 0 none)).sessions "s" = none →
      ∃ r' c sg, SEvent.exitEv "s" 1 0 none = SEvent.exitEv "s" r' c sg) :=
  session_removed_only_by_exit (attach st0 "s" 1) "s"
    { pid := 0, createRes := 1, res := some 1 } 7 (SEvent.exitEv "s" 1 0 none) rfl

/-- A concrete trace: first attach for id "s" through response 1. -/
def stA : ServerState := attach st0 "s" 1

/-- The session registered by `stA`. -/
def sessA : Session := { pid := 0, createRes := 1, res := some 1 }

/-- The client behind response 1 disconnects. -/
def stB : ServerState := clientDisconnect stA "s" 1

/-- The client reattaches through a fresh response 2. -/
def stC : ServerState := attach stB "s" 2

/-- The pty for "s" exits; its `onExit` closure still holds response 1. -/
def stD : ServerState := ptyExit stC "s" 1 0 none

/-- Counterexample for C5: in `stC` a live sink (response 2) is attached,
yet the exit delivers no `exit` frame at all, because the handler checks
the creation-time response 1, which is destroyed; the session is still
removed. -/
theorem exit_frame_skips_reattached_sink :
    lookupS stC.sessions "s" = some { pid := 0, createRes := 1, res := some 2 } ∧
    sinkClosed stC 2 = false ∧
    stD.writes = [(1, Frame.connected), (2, Frame.connected)] ∧
    lookupS stD.sessions "s" = none := by
  decide

/-- C5 (amended): the exit handler writes exactly one `exit` frame — to the
creation-time response, when that response is still open — and then
removes the session; when the creation-time response is closed (e.g. after
a reattach) no frame is delivered to anyone.  Invoking the handler twice
still yields exactly one frame and leaves the registry without the id. -/
theorem ptyExit_open (st : ServerState) (id : String) (r : Nat) (c : Int)
    (sg : Option Int) (h : sinkClosed st r = false) :
    ptyExit st id r c sg =
      { st with
        writes := st.writes ++ [(r, Frame.exitFrame c sg)],
        destroyed := st.destroyed ++ [r],
        sessions := delS st.sessions id } := by
  simp [ptyExit, h]

theorem ptyExit_closed (st : ServerState) (id : String) (r : Nat) (c : Int)
    (sg : Option Int) (h : sinkClosed st r = true) :
    ptyExit st id r c sg = { st with sessions := delS st.sessions id } := by
  simp [ptyExit, h]

theorem exit_delivery_and_idempotence (st : ServerState) (id : String) (r : Nat)
    (c : Int) (sg : Option Int) :
    (sinkClosed st r = false →
      (ptyExit st id r c sg).writes = st.writes ++ [(r, Frame.exitFrame c sg)] ∧
      lookupS (ptyExit st id r c sg).sessions id = none ∧
      (ptyExit (ptyExit st id r c sg) id r c sg).writes = (ptyExit st id r c sg).writes ∧
      lookupS (ptyExit (ptyExit st id r c sg) id r c sg).sessions id = none) ∧
    (sinkClosed st r = true →
      (ptyExit st id r c sg).writes = st.writes ∧
      lookupS (ptyExit st id r c sg).sessions id = none) := by
  constructor
  · intro h
    have hclosed : sinkClosed (ptyExit st id r c sg) r = true := by
      rw [ptyExit_open st id r c sg h]
      simp [sinkClosed]
    have h2 := ptyExit_closed (ptyExit st id r c sg) id r c sg hclosed
    refine ⟨?_, ?_, by rw [h2], by rw [h2]; exact lookupS_delS_self _ _⟩
    · rw [ptyExit_open st id r c sg h]
    · rw [ptyExit_open st id r c sg h]
      exact lookupS_delS_self _ _
  · intro h
    have h2 := ptyExit_closed st id r c sg h
    exact ⟨by rw [h2], by rw [h2]; exact lookupS_delS_self _ _⟩

/-- Witness for the amended C5: the pty of the freshly created session
exits while its creating response is still open, twice. -/
theorem exit_delivery_and_idempotence_witness :
    (ptyExit stA "s" 1 0 none).writes = stA.writes ++ [(1, Frame.exitFrame 0 none)] ∧
    lookupS (ptyExit stA "s" 1 0 none).sessions "s" = none ∧
    (ptyExit (ptyExit stA "s" 1 0 none) "s" 1 0 none).writes =
      (ptyExit stA "s" 1 0 none).writes ∧
    lookupS (ptyExit (ptyExit stA "s" 1 0 none) "s" 1 0 none).sessions "s" = none :=
  (exit_delivery_and_idempotence stA "s" 1 0 none).1 (by decide)

/-- Counterexample for C6: a resize with `cols = 0` on a registered session
is forwarded to `pty.resize` unchanged and answered with success — the
server performs no `cols ≥ 1, rows ≥ 1` validation. -/
theorem resize_accepts_zero_dims :
    (resizeHandler stA "s" 0 0).2 = Resp.ok ∧
    (resizeHandler stA "s" 0 0).1.ptyResizes = [(0, 0, 0)] ∧
    ¬(1 ≤ (0 : Int)) := by
  decide

/-- C6 (amended): the resize handler forwards `cols`/`rows` to the
session's `pty.resize` exactly as received, without any validation, and a
resize for an unregistered id fails with 404 without touching any pty. -/
theorem resize_forwards_unvalidated (st : ServerState) (id : String) (cols rows : Int)
    (s : Session) :
    (lookupS st.sessions id = some s →
      resizeHandler st id cols rows =
        ({ st with ptyResizes := st.ptyResizes ++ [(s.pid, cols, rows)] }, Resp.ok)) ∧
    (lookupS st.sessions id = none →
      resizeHandler st id cols rows = (st, Resp.notFound)) := by
  constructor <;> intro h <;> simp [resizeHandler, h]

/-- Witness for the amended C6: a registered session receives the verbatim
geometry; an empty registry answers 404. -/
theorem resize_forwards_unvalidated_witness :
    resizeHandler stA "s" 120 40 =
      ({ stA with ptyResizes := stA.ptyResizes ++ [(sessA.pid, 120, 40)] }, Resp.ok) ∧
    resizeHandler st0 "s" 120 40 = (st0, Resp.notFound) :=
  ⟨(resize_forwards_unvalidated stA "s" 120 40 sessA).1 (by decide),
   (resize_forwards_unvalidated st0 "s" 120 40 sessA).2 rfl⟩

/-- Counterexample for C7: a request whose body carries `input` present but
equal to the empty string is answered 400 and forwards nothing, although
the field is not missing. -/
theorem empty_input_rejected_as_missing :
    (inputHandler stA "s" (some "")).2 = Resp.badRequest ∧
    (inputHandler stA "s" (some "")).1.ptyWrites = [] ∧
    some "" ≠ (none : Option String) := by
  decide

/-- C7 (amended): the input handler answers 400 exactly when the `input`
field is missing or the empty string (JavaScript falsiness conflates the
two); a nonempty input for a registered id is forwarded verbatim to
`pty.write` with success; an unregistered id gets 404; and every request is
answered with one of these responses, never silently dropped. -/
theorem input_channel_responses (st : ServerState) (id : String) (input : Option String)
    (d : String) (s : Session) :
    ((inputHandler st id input).2 = Resp.badRequest ↔
      (input = none ∨ input = some "")) ∧
    (input = some d → d ≠ "" → lookupS st.sessions id = some s →
      inputHandler st id input =
        ({ st with ptyWrites := st.ptyWrites ++ [(s.pid, d)] }, Resp.ok)) ∧
    (input = some d → d ≠ "" → lookupS st.sessions id = none →
      inputHandler st id input = (st, Resp.notFound)) ∧
    ((inputHandler st id input).2 = Resp.ok ∨
      (inputHandler st id input).2 = Resp.badRequest ∨
      (inputHandler st id input).2 = Resp.notFound) := by
  refine ⟨?_, ?_, ?_, ?_⟩
  · cases input with
    | none => simp [inputHandler]
    | some d' =>
      by_cases hd : d' = ""
      · subst hd
        simp [inputHandler]
      · cases hl : lookupS st.sessions id <;> simp [inputHandler, hd, hl]
  · intro hi hd hl
    subst hi
    simp [inputHandler, hd, hl]
  · intro hi hd hl
    subst hi
    simp [inputHandler, hd, hl]
  · cases input with
    | none => simp [inputHandler]
    | some d' =>
      by_cases hd : d' = ""
      · subst hd
        simp [inputHandler]
      · cases hl : lookupS st.sessions id <;> simp [inputHandler, hd, hl]

/-- Witness for the amended C7: a concrete keystroke on the registered
session, and the same keystroke against an empty registry. -/
theorem input_channel_responses_witness :
    ((inputHandler stA "s" (some "x")).2 = Resp.badRequest ↔
      (some "x" = none ∨ some "x" = some "")) ∧
    inputHandler stA "s" (some "x") =
      ({ stA with ptyWrites := stA.ptyWrites ++ [(sessA.pid, "x")] }, Resp.ok) ∧
    inputHandler st0 "s" (some "x") = (st0, Resp.notFound) :=
  ⟨(input_channel_responses stA "s" (some "x") "x" sessA).1,
   (input_channel_responses stA "s" (some "x") "x" sessA).2.1 rfl (by decide) (by decide),
   (input_channel_responses st0 "s" (some "x") "x" sessA).2.2.1 rfl (by decide) rfl⟩

/-- C10: an input request whose `input` field is present but empty is
answered 400 with the state untouched — the empty string can never reach
`pty.write` because `!input` conflates it with a missing field. -/
theorem empty_input_never_reaches_pty (st : ServerState) (id : String) :
    inputHandler st id (some "") = (st, Resp.badRequest) := by
  simp [inputHandler]

/-- The `output` payloads of a write log, in order. -/
def outputsOf (l : List (Nat × Frame)) : List String :=
  l.filterMap fun w => match w.2 with | Frame.output d => some d | _ => none

theorem outputsOf_append (a b : List (Nat × Frame)) :
    outputsOf (a ++ b) = outputsOf a ++ outputsOf b := by
  simp [outputsOf]

theorem outputsOf_connected (l : List (Nat × Frame)) (r : Nat) :
    outputsOf (l ++ [(r, Frame.connected)]) = outputsOf l := by
  simp [outputsOf_append, outputsOf]

/-- Events of one session's output stream: the pty emits a chunk, the
client's connection closes, the client reattaches through a new response. -/
inductive OEvent where
| emit : String → OEvent
| disconnect : Nat → OEvent
| reattach : Nat → OEvent
deriving DecidableEq

/-- One output-stream step for the session `id` whose `onData` closure
captured the creation-time response `cr`. -/
def ostep (st : ServerState) (id : String) (cr : Nat) : OEvent → ServerState
| OEvent.emit d => ptyData st id cr d
| OEvent.disconnect r => clientDisconnect st id r
| OEvent.reattach r => attach st id r

def runO (st : ServerState) (id : String) (cr : Nat) : List OEvent → ServerState
| [] => st
| e :: es => runO (ostep st id cr e) id cr es

/-- Spec-side notion of "a sink is attached" (§4.2, §8): the creation-time
response is still open, or the session's rebound `res` points at an open
response. -/
def sinkAttached (st : ServerState) (id : String) (cr : Nat) : Bool :=
  !(sinkClosed st cr) ||
    (match lookupS st.sessions id with
     | some s =>
       match s.res with
       | some r => !(sinkClosed st r)
       | none => false
     | none => false)

/-- Spec-side description of the observable stream: the chunks emitted while
a sink is attached, in emission order (spec §8, "restricted to attached
windows").  This is the reference against which the embedded handlers are
compared. -/
def attachedChunks (st : ServerState) (id : String) (cr : Nat) : List OEvent → List String
| [] => []
| OEvent.emit d :: es =>
  (if sinkAttached st id cr then [d] else []) ++
    attachedChunks (ostep st id cr (OEvent.emit d)) id cr es
| OEvent.disconnect r :: es => attachedChunks (ostep st id cr (OEvent.disconnect r)) id cr es
| OEvent.reattach r :: es => attachedChunks (ostep st id cr (OEvent.reattach r)) id cr es

theorem attach_writes (st : ServerState) (id : String) (r : Nat) :
    (attach st id r).writes = st.writes ++ [(r, Frame.connected)] := by
  cases hl : lookupS st.sessions id <;> simp [attach, hl]

theorem clientDisconnect_writes (st : ServerState) (id : String) (r : Nat) :
    (clientDisconnect st id r).writes = st.writes := by
  cases hl : lookupS st.sessions id <;> simp [clientDisconnect, onReqClose, hl]

theorem ptyData_outputs (st : ServerState) (id : String) (cr : Nat) (d : String) :
    outputsOf (ptyData st id cr d).writes =
      outputsOf st.writes ++ (if sinkAttached st id cr then [d] else []) := by
  cases hcr : sinkClosed st cr with
  | false => simp [ptyData, sinkAttached, hcr, outputsOf_append, outputsOf]
  | true =>
    cases hl : lookupS st.sessions id with
    | none => simp [ptyData, sinkAttached, hcr, hl, outputsOf]
    | some s =>
      cases hres : s.res with
      | none => simp [ptyData, sinkAttached, hcr, hl, hres, outputsOf]
      | some r =>
        cases hr : sinkClosed st r with
        | false => simp [ptyData, sinkAttached, hcr, hl, hres, hr, outputsOf_append, outputsOf]
        | true => simp [ptyData, sinkAttached, hcr, hl, hres, hr, outputsOf]

theorem runO_outputs (id : String) (cr : Nat) (es : List OEvent) :
    ∀ st, outputsOf (runO st id cr es).writes =
      outputsOf st.writes ++ attachedChunks st id cr es := by
  induction es with
  | nil => intro st; simp [runO, attachedChunks]
  | cons e es ih =>
    intro st
    cases e with
    | emit d =>
      simp only [runO, ostep, attachedChunks, ih, ptyData_outputs, List.append_assoc]
    | disconnect r =>
      simp only [runO, ostep, attachedChunks, ih, clientDisconnect_writes]
    | reattach r =>
      simp only [runO, ostep, attachedChunks, ih, attach_writes, outputsOf_connected]

/-- The client's output batching state (app.js lines 384-406): the pending
`writeBuffer` and the concatenation of everything already handed to
`terminal.write`. -/
structure ClientBuf where
  buffer : String
  rendered : String
deriving DecidableEq

def cbInit : ClientBuf := ⟨"", ""⟩

/-- app.js line 387. -/
def MAX_BUFFER_SIZE : Nat := 4096

/-- `flushBuffer` (app.js lines 389-401): render the pending buffer, if
any, and clear it. -/
def clientFlush (c : ClientBuf) : ClientBuf :=
  if c.buffer = "" then c else { buffer := "", rendered := c.rendered ++ c.buffer }

/-- The `output` branch of `eventSource.onmessage` (app.js lines 419-431):
append the payload to the buffer; flush immediately at `MAX_BUFFER_SIZE`,
otherwise leave the buffer for the scheduled timer flush. -/
def clientOutput (c : ClientBuf) (d : String) : ClientBuf :=
  if MAX_BUFFER_SIZE ≤ (c.buffer ++ d).length then clientFlush { c with buffer := c.buffer ++ d }
  else { c with buffer := c.buffer ++ d }

def clientRun (c : ClientBuf) : List String → ClientBuf
| [] => c
| d :: ds => clientRun (clientOutput c d) ds

/-- Concatenation of a list of chunks. -/
def strJoin : List String → String
| [] => ""
| d :: ds => d ++ strJoin ds

theorem clientFlush_invariant (c : ClientBuf) :
    (clientFlush c).rendered ++ (clientFlush c).buffer = c.rendered ++ c.buffer := by
  unfold clientFlush
  split
  · rfl
  · simp [String.append_empty]

theorem clientFlush_buffer (c : ClientBuf) : (clientFlush c).buffer = "" := by
  unfold clientFlush
  split
  next h => exact h
  next => rfl

theorem clientOutput_invariant (c : ClientBuf) (d : String) :
    (clientOutput c d).rendered ++ (clientOutput c d).buffer = c.rendered ++ (c.buffer ++ d) := by
  unfold clientOutput
  split
  · rw [clientFlush_invariant]
  · rfl

theorem clientRun_invariant (ds : List String) :
    ∀ c, (clientRun c ds).rendered ++ (clientRun c ds).buffer =
      c.rendered ++ (c.buffer ++ strJoin ds) := by
  induction ds with
  | nil => intro c; simp [clientRun, strJoin, String.append_empty]
  | cons d ds ih =>
    intro c
    show (clientRun (clientOutput c d) ds).rendered ++ (clientRun (clientOutput c d) ds).buffer = _
    rw [ih (clientOutput c d), ← String.append_assoc, clientOutput_invariant]
    simp [strJoin, String.append_assoc]

theorem client_renders_concat (ds : List String) :
    (clientFlush (clientRun cbInit ds)).rendered = strJoin ds := by
  have h1 := clientFlush_invariant (clientRun cbInit ds)
  rw [clientFlush_buffer, String.append_empty] at h1
  rw [h1, clientRun_invariant ds cbInit]
  simp [cbInit, String.empty_append]

/-- C3: order-preserving output.  The server writes exactly one `output`
frame per chunk emitted while a sink is attached — so the payload stream on
the wire equals the emitted chunks restricted to attached windows, in
order, with no gaps or reordering — and the client's batching buffer
renders any frame sequence as its exact concatenation, so the concatenation
rendered by the client equals the concatenation of the chunks emitted while
attached. -/
theorem output_stream_order_preserved (st : ServerState) (id : String) (cr : Nat)
    (es : List OEvent) (ds : List String) :
    outputsOf (runO st id cr es).writes = outputsOf st.writes ++ attachedChunks st id cr es ∧
    (clientFlush (clientRun cbInit ds)).rendered = strJoin ds ∧
    (clientFlush (clientRun cbInit (attachedChunks st id cr es))).rendered =
      strJoin (attachedChunks st id cr es) :=
  ⟨runO_outputs id cr es st, client_renders_concat ds, client_renders_concat _⟩

/-- The client's keystroke pipeline state (app.js lines 300-326): the
pending `inputQueue`, the `isProcessingInput` flag, the number of
unsettled `sendTerminalInput` requests, and the payloads handed to
`sendTerminalInput`, in order. -/
structure InQ where
  queue : List String
  processing : Bool
  inFlight : Nat
  sent : List String
deriving DecidableEq

def qInit : InQ := ⟨[], false, 0, []⟩

/-- `processInputQueue` (app.js lines 305-326): return unless idle with a
nonempty queue; otherwise shift one entry, set the flag and send it. -/
def drainStep (q : InQ) : InQ :=
  if q.processing then q
  else
    match q.queue with
    | [] => q
    | d :: rest => { queue := rest, processing := true, inFlight := q.inFlight + 1, sent := q.sent ++ [d] }

/-- The post-debounce tail of `terminal.onData` (app.js lines 341-347):
push the payload, then run `processInputQueue` when not already
processing. -/
def enqueueKey (q : InQ) (d : String) : InQ :=
  if q.processing then { q with queue := q.queue ++ [d] }
  else drainStep { q with queue := q.queue ++ [d] }

/-- The `.finally` continuation of a settled send (app.js lines 318-325):
clear the flag and, when the queue is nonempty, run `processInputQueue`
again.  It only ever runs for an outstanding request, so it is a no-op at
`inFlight = 0`. -/
def settleReq (q : InQ) : InQ :=
  if q.inFlight = 0 then q
  else if q.queue.isEmpty then { q with processing := false, inFlight := q.inFlight - 1 }
  else drainStep { q with processing := false, inFlight := q.inFlight - 1 }

inductive QEvent where
| key : String → QEvent
| settle : QEvent
deriving DecidableEq

def qstep (q : InQ) : QEvent → InQ
| QEvent.key d => enqueueKey q d
| QEvent.settle => settleReq q

def qrun (q : InQ) : List QEvent → InQ
| [] => q
| e :: es => qrun (qstep q e) es

/-- The keystroke payloads of an event trace, in order. -/
def keysOf (es : List QEvent) : List String :=
  es.filterMap fun e => match e with | QEvent.key d => some d | QEvent.settle => none

/-- The drain invariant: a request is in flight exactly while the
`isProcessingInput` flag is set. -/
def qInv (q : InQ) : Prop := q.inFlight = if q.processing then 1 else 0

theorem drainStep_inv (q : InQ) (h : qInv q) :
    qInv (drainStep q) ∧ (drainStep q).sent ++ (drainStep q).queue = q.sent ++ q.queue := by
  obtain ⟨qu, pr, fl, se⟩ := q
  cases pr with
  | true => exact ⟨h, rfl⟩
  | false =>
    cases qu with
    | nil => exact ⟨h, rfl⟩
    | cons d rest =>
      have h0 : fl = 0 := by simpa [qInv] using h
      subst h0
      exact ⟨by simp [qInv, drainStep], by simp [drainStep]⟩

theorem enqueueKey_inv (q : InQ) (d : String) (h : qInv q) :
    qInv (enqueueKey q d) ∧
    (enqueueKey q d).sent ++ (enqueueKey q d).queue = q.sent ++ q.queue ++ [d] := by
  have h1 : qInv ({ q with queue := q.queue ++ [d] } : InQ) := h
  unfold enqueueKey
  split
  · exact ⟨h1, by simp⟩
  · obtain ⟨hi, hs⟩ := drainStep_inv _ h1
    exact ⟨hi, by rw [hs]; simp⟩

theorem settleReq_inv (q : InQ) (h : qInv q) :
    qInv (settleReq q) ∧ (settleReq q).sent ++ (settleReq q).queue = q.sent ++ q.queue := by
  unfold settleReq
  split
  · exact ⟨h, rfl⟩
  next hfl =>
    have hfl1 : q.inFlight = 1 := by
      cases hp : q.processing
      · exact absurd (by simpa [qInv, hp] using h) hfl
      · simpa [qInv, hp] using h
    have h1 : qInv ({ q with processing := false, inFlight := q.inFlight - 1 } : InQ) := by
      simp [qInv, hfl1]
    split
    · exact ⟨h1, rfl⟩
    · obtain ⟨hi, hs⟩ := drainStep_inv _ h1
      exact ⟨hi, hs⟩

theorem qrun_inv (es : List QEvent) :
    ∀ q, qInv q → qInv (qrun q es) ∧
      (qrun q es).sent ++ (qrun q es).queue = q.sent ++ q.queue ++ keysOf es := by
  induction es with
  | nil => intro q h; exact ⟨h, by simp [qrun, keysOf]⟩
  | cons e es ih =>
    intro q h
    cases e with
    | key d =>
      obtain ⟨h1, h2⟩ := enqueueKey_inv q d h
      obtain ⟨h3, h4⟩ := ih (enqueueKey q d) h1
      refine ⟨h3, ?_⟩
      show (qrun (enqueueKey q d) es).sent ++ (qrun (enqueueKey q d) es).queue = _
      rw [h4, h2]
      simp [keysOf, List.filterMap_cons, List.append_assoc]
    | settle =>
      obtain ⟨h1, h2⟩ := settleReq_inv q h
      obtain ⟨h3, h4⟩ := ih (settleReq q) h1
      refine ⟨h3, ?_⟩
      show (qrun (settleReq q) es).sent ++ (qrun (settleReq q) es).queue = _
      rw [h4, h2]
      simp [keysOf, List.filterMap_cons]

/-- C4: for any interleaving of enqueued keystrokes and request
settlements, at most one input request is in flight at any time (exactly
one while the processing flag is set), a new entry is popped only through
the settle-then-drain path, and the payload sequence handed to
`sendTerminalInput` is exactly an initial segment of the enqueue (FIFO)
order — what was sent plus what still queues reconstructs the enqueue
order. -/
theorem input_queue_fifo_single_flight (es : List QEvent) :
    (qrun qInit es).inFlight ≤ 1 ∧
    (qrun qInit es).inFlight = (if (qrun qInit es).processing then 1 else 0) ∧
    (qrun qInit es).sent ++ (qrun qInit es).queue = keysOf es ∧
    ∃ t, (qrun qInit es).sent ++ t = keysOf es := by
  obtain ⟨h1, h2⟩ := qrun_inv es qInit rfl
  have h2' : (qrun qInit es).sent ++ (qrun qInit es).queue = keysOf es := by
    simpa [qInit] using h2
  refine ⟨?_, h1, h2', ⟨(qrun qInit es).queue, h2'⟩⟩
  rw [h1]
  split <;> simp

/-- The full `terminal.onData` state (app.js lines 300-348): the time of
the last accepted input and the queue pipeline. -/
structure DebState where
  lastInputTime : Int
  q : InQ
deriving DecidableEq

/-- app.js line 303. -/
def INPUT_DEBOUNCE_MS : Int := 5

/-- `terminal.onData` (app.js lines 330-348): drop a single-character
payload arriving within the debounce window of the last accepted input —
without comparing its content to the predecessor — otherwise record the
time and enqueue it. -/
def onData (s : DebState) (now : Int) (d : String) : DebState :=
  if now - s.lastInputTime < INPUT_DEBOUNCE_MS ∧ d.length = 1 then s
  else { lastInputTime := now, q := enqueueKey s.q d }

def deb0 : DebState := ⟨0, qInit⟩

def deb1 : DebState := onData deb0 1000 "a"

/-- Counterexample for C8: after accepting "a" at time 1000, the input "b"
at time 1003 — a single character that differs from its predecessor — is
suppressed: the debounce checks only timing and length, never content. -/
theorem debounce_drops_distinct_single_char :
    deb1.q.sent = ["a"] ∧ deb1.q.queue = [] ∧ ("b" : String) ≠ "a" ∧
    onData deb1 1003 "b" = deb1 := by
  decide

/-- C8 (amended): the debounce suppresses any single-character input
arriving within 5ms of the last accepted input, whether or not it
duplicates its predecessor; a multi-character input is never suppressed,
and any input arriving at or after the 5ms window is accepted. -/
theorem debounce_by_timing_only (s : DebState) (now : Int) (d : String) :
    (d.length ≠ 1 → onData s now d = { lastInputTime := now, q := enqueueKey s.q d }) ∧
    (d.length = 1 → now - s.lastInputTime < INPUT_DEBOUNCE_MS → onData s now d = s) ∧
    (INPUT_DEBOUNCE_MS ≤ now - s.lastInputTime →
      onData s now d = { lastInputTime := now, q := enqueueKey s.q d }) := by
  refine ⟨fun h => ?_, fun h1 h2 => ?_, fun h => ?_⟩
  · rw [onData, if_neg]
    intro hc
    exact h hc.2
  · rw [onData, if_pos ⟨h2, h1⟩]
  · rw [onData, if_neg]
    intro hc
    omega

/-- Witness for the amended C8: a pasted two-character input right after an
accepted one, a suppressed fast single character, and an accepted slow
one. -/
theorem debounce_by_timing_only_witness :
    onData deb0 2 "ab" = { lastInputTime := 2, q := enqueueKey deb0.q "ab" } ∧
    onData deb1 1003 "z" = deb1 ∧
    onData deb1 1005 "z" = { lastInputTime := 1005, q := enqueueKey deb1.q "z" } :=
  ⟨(debounce_by_timing_only deb0 2 "ab").1 (by decide),
   (debounce_by_timing_only deb1 1003 "z").2.1 (by decide) (by decide),
   (debounce_by_timing_only deb1 1005 "z").2.2 (by decide)⟩

/-- `EventSource.readyState`. -/
inductive ESReady where
| connecting : ESReady
| opened : ESReady
| closed : ESReady
deriving DecidableEq

/-- The client connection state (app.js lines 376-475): the transport
state, the `sessionReady` flag, whether `eventSource.close()` was called,
the delays of the reconnect timers scheduled so far, and the session id
the next `connectTerminal` would reuse. -/
structure ConnState where
  readyState : ESReady
  sessionReady : Bool
  closedByClient : Bool
  reconnectDelays : List Nat
  sessionId : String
deriving DecidableEq

/-- The `exit` branch of `eventSource.onmessage` (app.js lines 439-444):
flush, print "[Session ended]", clear `sessionReady` and close the
EventSource.  No reconnect timer is set, and a closed EventSource fires no
further events. -/
def onExitFrame (c : ConnState) : ConnState :=
  { c with sessionReady := false, readyState := ESReady.closed, closedByClient := true }

/-- `eventSource.onerror` (app.js lines 452-464): informational while
CONNECTING; on CLOSED, clear `sessionReady` and schedule `connectTerminal`
after a fixed 1000ms. -/
def onError (c : ConnState) : ConnState :=
  if c.readyState = ESReady.connecting then c
  else if c.readyState = ESReady.closed then
    { c with sessionReady := false, reconnectDelays := c.reconnectDelays ++ [1000] }
  else c

/-- `connectTerminal` (app.js lines 376-381): reset `sessionReady` and open
a new EventSource — in CONNECTING state — for the unchanged module-level
`terminalSessionId`. -/
def connectTerminal (c : ConnState) : ConnState :=
  { c with sessionReady := false, readyState := ESReady.connecting, closedByClient := false }

def conn0 : ConnState := ⟨ESReady.opened, true, false, [], "sid"⟩

/-- Counterexample for C9: on receipt of an exit frame the client closes
the channel itself and schedules no reconnect timer at all — it does not
re-enter Connecting after 1 second. -/
theorem exit_frame_schedules_no_reconnect :
    (onExitFrame conn0).reconnectDelays = [] ∧
    (onExitFrame conn0).closedByClient = true ∧
    (onExitFrame conn0).sessionReady = false := by
  decide

/-- C9 (amended): only a transport error with the transport in CLOSED
state triggers reconnection, always after the fixed delay of 1000ms and
reattaching with the unchanged session id; a transport error while
CONNECTING is informational; receipt of an exit frame closes the channel
from the client side without scheduling any reconnection. -/
theorem reconnect_only_on_closed_transport_error (c : ConnState) :
    (c.readyState = ESReady.closed →
      onError c = { c with sessionReady := false,
                           reconnectDelays := c.reconnectDelays ++ [1000] } ∧
      (connectTerminal (onError c)).sessionId = c.sessionId ∧
      (connectTerminal (onError c)).readyState = ESReady.connecting) ∧
    (c.readyState = ESReady.connecting → onError c = c) ∧
    ((onExitFrame c).reconnectDelays = c.reconnectDelays ∧
      (onExitFrame c).closedByClient = true ∧ (onExitFrame c).sessionReady = false) := by
  refine ⟨fun h => ?_, fun h => ?_, rfl, rfl, rfl⟩
  · rw [onError, if_neg (by rw [h]; intro hc; exact ESReady.noConfusion hc), if_pos h]
    exact ⟨rfl, rfl, rfl⟩
  · rw [onError, if_pos h]

def connClosed : ConnState := ⟨ESReady.closed, false, false, [], "sid"⟩

/-- Witness for the amended C9 at a closed transport. -/
theorem reconnect_only_on_closed_transport_error_witness :
    onError connClosed =
      { connClosed with
        sessionReady := false, reconnectDelays := connClosed.reconnectDelays ++ [1000] } ∧
    (connectTerminal (onError connClosed)).sessionId = connClosed.sessionId ∧
    (connectTerminal (onError connClosed)).readyState = ESReady.connecting :=
  (reconnect_only_on_closed_transport_error connClosed).1 rfl

end TermBridge
